import Mathlib

/-!
Verification of the wireframe feature-edge extractor (scripts/extract-wireframe.mjs).

The extractor is a single-pass batch pipeline: GLTF loading, per-face normals,
edge-to-face adjacency, zone-aware dihedral/length filtering, and compaction of
the kept edges onto a dense vertex index space.  The embedding below translates
each function of the script into Lean, modelling JavaScript numbers by real
numbers (the algorithmic claims under study concern the branching logic and the
exact real functions `sqrt`/`acos`, not floating-point rounding).  JavaScript
`Map`/`Set` values, which iterate in insertion order, are modelled by
association lists and duplicate-free lists maintained in the same order.
-/

open scoped Classical

namespace Wireframe

/-- A 3-component vector `[x, y, z]`, as used throughout the script. -/
abbrev Vec3 : Type := ℝ × ℝ × ℝ

/-- `sub(a, b)` from the script: componentwise difference. -/
def sub (a b : Vec3) : Vec3 :=
  (a.1 - b.1, a.2.1 - b.2.1, a.2.2 - b.2.2)

/-- `cross(a, b)` from the script. -/
def cross (a b : Vec3) : Vec3 :=
  (a.2.1 * b.2.2 - a.2.2 * b.2.1,
   a.2.2 * b.1 - a.1 * b.2.2,
   a.1 * b.2.1 - a.2.1 * b.1)

/-- `dot(a, b)` from the script. -/
def dot (a b : Vec3) : ℝ :=
  a.1 * b.1 + a.2.1 * b.2.1 + a.2.2 * b.2.2

/-- `vecLength(v)` from the script: `Math.sqrt(v[0]*v[0] + v[1]*v[1] + v[2]*v[2])`. -/
noncomputable def vecLength (v : Vec3) : ℝ :=
  Real.sqrt (v.1 * v.1 + v.2.1 * v.2.1 + v.2.2 * v.2.2)

/-- `normalize(v)` from the script: divides by the length when it is positive,
otherwise returns the zero vector. -/
noncomputable def normalize (v : Vec3) : Vec3 :=
  if vecLength v > 0 then
    (v.1 / vecLength v, v.2.1 / vecLength v, v.2.2 / vecLength v)
  else (0, 0, 0)

/-- `dist(a, b)` from the script. -/
noncomputable def dist (a b : Vec3) : ℝ :=
  vecLength (sub a b)

/-- `midpoint(a, b)` from the script. -/
noncomputable def midpoint (a b : Vec3) : Vec3 :=
  ((a.1 + b.1) / 2, (a.2.1 + b.2.1) / 2, (a.2.2 + b.2.2) / 2)

/-- A spatial zone: axis-aligned bounding box plus its own threshold (degrees)
and minimum edge length, as in the `ZONES` table of the script. -/
structure Zone where
  name : String
  xMin : ℝ
  xMax : ℝ
  yMin : ℝ
  yMax : ℝ
  zMin : ℝ
  zMax : ℝ
  threshold : ℝ
  minLength : ℝ

/-- The `ZONES` constant of the script (seven zones, in declaration order). -/
noncomputable def ZONES : List Zone :=
  [⟨"Engine Intakes (Right)", 15, 38, 8, 38, 95, 150, 8, 0.5⟩,
   ⟨"Engine Intakes (Left)", 60, 83, 8, 38, 95, 150, 10, 2⟩,
   ⟨"Cockpit / Nose", 35, 63, 8, 38, 160, 215, 10, 0.8⟩,
   ⟨"Tail / Rudders", 0, 98, 8, 38, 19, 60, 8, 8⟩,
   ⟨"Right Wing", 0, 15, 8, 38, 19, 215, 10, 0.8⟩,
   ⟨"Left Wing", 83, 98, 8, 38, 19, 215, 1, 0.8⟩,
   ⟨"Engine Exhaust Area", 15, 83, 8, 22, 20, 85, 20, 2.0⟩]

/-- The containment test of `findZone`: the point is inside the zone's box,
with inclusive bounds on all three axes, in the comparison order of the source. -/
def zoneContains (z : Zone) (p : Vec3) : Prop :=
  p.1 ≥ z.xMin ∧ p.1 ≤ z.xMax ∧
  p.2.1 ≥ z.yMin ∧ p.2.1 ≤ z.yMax ∧
  p.2.2 ≥ z.zMin ∧ p.2.2 ≤ z.zMax

/-- `findZone(point)` from the script, generalized over the list it scans
(the script scans the global `ZONES`): returns the first zone whose box
contains the point, or `none`. -/
noncomputable def findZone : List Zone → Vec3 → Option Zone
  | [], _ => none
  | z :: zs, p => if zoneContains z p then some z else findZone zs p

/-- A small test zone (box `[0,1]^3`) used to instantiate the zone-lookup
contract on a concrete overlapping configuration. -/
noncomputable def zoneA : Zone := ⟨"Test Zone A", 0, 1, 0, 1, 0, 1, 5, 0⟩

/-- A larger test zone (box `[0,2]^3`) that spatially contains `zoneA`. -/
noncomputable def zoneB : Zone := ⟨"Test Zone B", 0, 2, 0, 2, 0, 2, 9, 1⟩

/-- The configuration record consumed by the extractor
(the numeric and boolean fields of `opts` that the filter reads). -/
structure Opts where
  threshold : ℝ
  minLength : ℝ
  featureLength : ℝ
  boundary : Bool
  zones : Bool

/-- The zone consulted for an edge midpoint:
`const zone = useZones ? findZone(mid) : null`. -/
noncomputable def effectiveZone (useZones : Bool) (mid : Vec3) : Option Zone :=
  if useZones then findZone ZONES mid else none

/-- `const localThreshold = zone ? zone.threshold : opts.threshold`. -/
def localThreshold (opts : Opts) (zone : Option Zone) : ℝ :=
  match zone with
  | some z => z.threshold
  | none => opts.threshold

/-- `const localMinLength = zone ? zone.minLength : opts.minLength`. -/
def localMinLength (opts : Opts) (zone : Option Zone) : ℝ :=
  match zone with
  | some z => z.minLength
  | none => opts.minLength

/-- `edgeKey(a, b)` from the script.  The script builds the string
`a_b` with the smaller index first; since the decimal rendering of an
ordered pair of naturals is injective, the canonical ordered pair itself
is a faithful model of the key. -/
def edgeKey (a b : ℕ) : ℕ × ℕ :=
  if a < b then (a, b) else (b, a)

/-- One step of the adjacency construction:
`if (!edgeFaces.has(ek)) edgeFaces.set(ek, []); edgeFaces.get(ek).push(f)`.
The JavaScript `Map` keeps keys in insertion order, so it is modelled by an
association list where a fresh key is appended at the end. -/
def addFace : List ((ℕ × ℕ) × List ℕ) → (ℕ × ℕ) → ℕ → List ((ℕ × ℕ) × List ℕ)
  | [], k, f => [(k, [f])]
  | (k', fs) :: rest, k, f =>
      if k' = k then (k', fs ++ [f]) :: rest else (k', fs) :: addFace rest k f

/-- `indices[f * 3 + j]` (the `j`-th vertex index of triangle `f`). -/
def triIndex (indices : List ℕ) (f j : ℕ) : ℕ :=
  indices.getD (f * 3 + j) 0

/-- The three canonical edge keys of triangle `f`, derived from its
vertex-index pairs in winding order:
`[edgeKey(i0, i1), edgeKey(i1, i2), edgeKey(i2, i0)]`. -/
def triEdgeKeys (indices : List ℕ) (f : ℕ) : List (ℕ × ℕ) :=
  [edgeKey (triIndex indices f 0) (triIndex indices f 1),
   edgeKey (triIndex indices f 1) (triIndex indices f 2),
   edgeKey (triIndex indices f 2) (triIndex indices f 0)]

/-- The inner loop body of Step 2: pushes face `f` onto the lists of its
three edge keys, in winding order. -/
def addTriangle (m : List ((ℕ × ℕ) × List ℕ)) (indices : List ℕ) (f : ℕ) :
    List ((ℕ × ℕ) × List ℕ) :=
  (triEdgeKeys indices f).foldl (fun m' k => addFace m' k f) m

/-- Step 2 of the script: the edge-to-faces adjacency map, built by scanning
the triangles in index order. -/
def buildAdjacency (indices : List ℕ) : List ((ℕ × ℕ) × List ℕ) :=
  (List.range (indices.length / 3)).foldl (fun m f => addTriangle m indices f) []

/-- `edgeFaces.get(k)` on the association-list model (`[]` when absent). -/
def lookupFaces (m : List ((ℕ × ℕ) × List ℕ)) (k : ℕ × ℕ) : List ℕ :=
  match m with
  | [] => []
  | (k', fs) :: rest => if k' = k then fs else lookupFaces rest k

/-- The per-category tallies of the filter
(`let stats = { sharp: 0, long: 0, boundary: 0, tooShort: 0, coplanar: 0, nonManifold: 0 }`). -/
structure Stats where
  sharp : ℕ
  long : ℕ
  boundary : ℕ
  tooShort : ℕ
  coplanar : ℕ
  nonManifold : ℕ

/-- The all-zero initial tallies. -/
def initStats : Stats := ⟨0, 0, 0, 0, 0, 0⟩

/-- The sum of the four kept-edge tallies (`sharp`, `long`, `boundary`,
`nonManifold`): every push onto `featureEdges` is paired with exactly one of
these four increments. -/
def keptCount (s : Stats) : ℕ :=
  s.sharp + s.long + s.boundary + s.nonManifold

/-- The dihedral-angle computation of the filter:
`Math.acos(Math.max(-1, Math.min(1, cosAngle)))` with `cosAngle = dot(n1, n2)`. -/
noncomputable def dihedralAngle (n1 n2 : Vec3) : ℝ :=
  Real.arccos (max (-1) (min 1 (dot n1 n2)))

/-- `getVertex(i)` from the script: `[positions[i*3], positions[i*3+1], positions[i*3+2]]`
(out-of-range reads default to `0`; the claims under study never exercise them). -/
def getVertex (positions : List ℝ) (i : ℕ) : Vec3 :=
  (positions.getD (i * 3) 0, positions.getD (i * 3 + 1) 0, positions.getD (i * 3 + 2) 0)

/-- The face normal of triangle `f` (Step 1 of the script):
`normalize(cross(sub(v1, v0), sub(v2, v0)))`. -/
noncomputable def faceNormal (positions : List ℝ) (indices : List ℕ) (f : ℕ) : Vec3 :=
  let v0 := getVertex positions (triIndex indices f 0)
  let v1 := getVertex positions (triIndex indices f 1)
  let v2 := getVertex positions (triIndex indices f 2)
  normalize (cross (sub v1 v0) (sub v2 v0))

/-- The `faceNormals` array of Step 1. -/
noncomputable def faceNormals (positions : List ℝ) (indices : List ℕ) : List Vec3 :=
  (List.range (indices.length / 3)).map (faceNormal positions indices)

/-- The body of the Step 3 loop for a single adjacency entry `((a, b), faces)`:
zone resolution, the minLength hard floor, then classification by adjacent-face
count, updating the kept-edge list and the tallies exactly as the script does.
The per-zone console tallies (`zoneStats`), which are printed but never reach
the output document, are not modelled. -/
noncomputable def processEdge (opts : Opts) (useZones : Bool) (gv : ℕ → Vec3)
    (fns : List Vec3) (acc : List (ℕ × ℕ) × Stats) (e : (ℕ × ℕ) × List ℕ) :
    List (ℕ × ℕ) × Stats :=
  let a := e.1.1
  let b := e.1.2
  let faces := e.2
  let va := gv a
  let vb := gv b
  let edgeLen := dist va vb
  let mid := midpoint va vb
  let zone := effectiveZone useZones mid
  let localThresholdRad := localThreshold opts zone * Real.pi / 180
  if edgeLen < localMinLength opts zone then
    (acc.1, { acc.2 with tooShort := acc.2.tooShort + 1 })
  else if faces.length = 1 then
    if opts.boundary then
      (acc.1 ++ [(a, b)], { acc.2 with boundary := acc.2.boundary + 1 })
    else acc
  else if faces.length = 2 then
    let n1 := fns.getD (faces.getD 0 0) (0, 0, 0)
    let n2 := fns.getD (faces.getD 1 0) (0, 0, 0)
    if dihedralAngle n1 n2 > localThresholdRad then
      (acc.1 ++ [(a, b)], { acc.2 with sharp := acc.2.sharp + 1 })
    else if edgeLen > opts.featureLength then
      (acc.1 ++ [(a, b)], { acc.2 with long := acc.2.long + 1 })
    else
      (acc.1, { acc.2 with coplanar := acc.2.coplanar + 1 })
  else
    (acc.1 ++ [(a, b)], { acc.2 with nonManifold := acc.2.nonManifold + 1 })

/-- The whole Step 3 loop over the adjacency entries (in map order). -/
noncomputable def filterEdges (opts : Opts) (useZones : Bool) (gv : ℕ → Vec3)
    (fns : List Vec3) (edges : List ((ℕ × ℕ) × List ℕ)) : List (ℕ × ℕ) × Stats :=
  edges.foldl (processEdge opts useZones gv fns) ([], initStats)

/-- `usedVertices.add(v)`: a JavaScript `Set` iterates in insertion order, so
it is modelled by a duplicate-free list with append-if-absent. -/
def addVertex (acc : List ℕ) (v : ℕ) : List ℕ :=
  if v ∈ acc then acc else acc ++ [v]

/-- The `usedVertices` set of Step 4, as the list of distinct endpoint indices
in first-encounter order. -/
def usedVerticesList (edges : List (ℕ × ℕ)) : List ℕ :=
  edges.foldl (fun acc e => addVertex (addVertex acc e.1) e.2) []

/-- The compacted `outVertices` buffer: three coordinates per used vertex,
in first-encounter order. -/
def outVertices (gv : ℕ → Vec3) (used : List ℕ) : List ℝ :=
  used.flatMap (fun v => [(gv v).1, (gv v).2.1, (gv v).2.2])

/-- The `outIndices` buffer: `vertexMap.get(a), vertexMap.get(b)` per kept edge.
Since `vertexMap` assigns dense indices in the iteration order of `usedVertices`,
`vertexMap.get(v)` is the position of `v` in the used-vertex list. -/
def outIndices (used : List ℕ) (edges : List (ℕ × ℕ)) : List ℕ :=
  edges.flatMap (fun e => [used.indexOf e.1, used.indexOf e.2])

/-- The metadata block of the output document. -/
structure MeshMeta where
  sourceVertices : ℕ
  sourceTriangles : ℕ
  sourceEdges : ℕ
  featureEdges : ℕ
  sharp : ℕ
  long : ℕ
  boundary : ℕ
  tooShort : ℕ
  coplanar : ℕ
  nonManifold : ℕ
  threshold : ℝ
  minLength : ℝ
  featureLength : ℝ
  zonesEnabled : Bool

/-- The output document: `{ vertices, indices, meta }`. -/
structure ExtractResult where
  vertices : List ℝ
  indices : List ℕ
  meta : MeshMeta

/-- `extractFeatureEdges` from the script, as the pure transformation from the
loaded buffers (flat positions, flat triangle indices) and the configuration to
the output document.  File reading and console printing are outside the model. -/
noncomputable def extractFeatureEdges (positions : List ℝ) (indices : List ℕ)
    (opts : Opts) : ExtractResult :=
  let vertexCount := positions.length / 3
  let triangleCount := indices.length / 3
  let gv := getVertex positions
  let fns := faceNormals positions indices
  let edgeFaces := buildAdjacency indices
  let useZones := opts.zones && !ZONES.isEmpty
  let filtered := filterEdges opts useZones gv fns edgeFaces
  let used := usedVerticesList filtered.1
  { vertices := outVertices gv used,
    indices := outIndices used filtered.1,
    meta := { sourceVertices := vertexCount,
              sourceTriangles := triangleCount,
              sourceEdges := edgeFaces.length,
              featureEdges := filtered.1.length,
              sharp := filtered.2.sharp,
              long := filtered.2.long,
              boundary := filtered.2.boundary,
              tooShort := filtered.2.tooShort,
              coplanar := filtered.2.coplanar,
              nonManifold := filtered.2.nonManifold,
              threshold := opts.threshold,
              minLength := opts.minLength,
              featureLength := opts.featureLength,
              zonesEnabled := useZones } }

/-- One entry of `gltf.buffers` (only its presence matters to the loader's
control flow; the external payload itself is passed to the loader as bytes). -/
structure GBuffer where
  uri : String

/-- One entry of `gltf.bufferViews` (`byteOffset || 0` makes an absent offset
behave as `0`, so the field is a plain natural). -/
structure GBufferView where
  byteOffset : ℕ

/-- One entry of `gltf.accessors` (again with `byteOffset || 0`). -/
structure GAccessor where
  bufferView : ℕ
  byteOffset : ℕ
  count : ℕ
  componentType : ℕ

/-- The parsed GLTF container layout.  An absent or too-short array makes the
script's index accesses yield `undefined` and the subsequent property access
throw, which the model reports as a parse error. -/
structure Gltf where
  buffers : List GBuffer
  bufferViews : List GBufferView
  accessors : List GAccessor

/-- The loader's two fatal failure modes: a `TypeError`/`RangeError` raised
while resolving the accessor/buffer-view layout (ParseError), and the explicit
`throw` on an unrecognized index component type (UnsupportedFormatError). -/
inductive LoadError where
  | parseError
  | unsupportedFormatError
deriving DecidableEq

/-- The loader's successful result:
`{ positions, indices, vertexCount, triangleCount }`. -/
structure MeshData where
  positions : List ℝ
  indices : List ℕ
  vertexCount : ℕ
  triangleCount : ℕ

/-- `loadGLTF(gltfPath)` from the script, over the parsed container `gltf` and
the raw bytes `bin` of its first buffer.  Decoding bytes into 32-bit floats or
16/32-bit unsigned integers is abstracted into the three `decode*` parameters
(IEEE-754 bit layout is outside the model); the control flow — which lookups
happen, in which order, and which failure each missing or malformed piece
raises — follows the script line by line.  A typed-array constructor whose view
would overrun the buffer throws a `RangeError`, modelled as a parse error. -/
def loadGLTF (decodeF32 : List ℕ → ℕ → ℕ → List ℝ)
    (decodeU16 decodeU32 : List ℕ → ℕ → ℕ → List ℕ)
    (gltf : Gltf) (bin : List ℕ) : Except LoadError MeshData :=
  match gltf.buffers.get? 0 with
  | none => .error .parseError
  | some _ =>
  match gltf.accessors.get? 0 with
  | none => .error .parseError
  | some posAccessor =>
  match gltf.bufferViews.get? posAccessor.bufferView with
  | none => .error .parseError
  | some posView =>
  let posOffset := posView.byteOffset + posAccessor.byteOffset
  let posCount := posAccessor.count
  if bin.length < posOffset + 4 * (posCount * 3) then .error .parseError
  else
  let positions := decodeF32 bin posOffset (posCount * 3)
  match gltf.accessors.get? 1 with
  | none => .error .parseError
  | some idxAccessor =>
  match gltf.bufferViews.get? idxAccessor.bufferView with
  | none => .error .parseError
  | some idxView =>
  let idxOffset := idxView.byteOffset + idxAccessor.byteOffset
  let idxCount := idxAccessor.count
  if idxAccessor.componentType = 5123 then
    if bin.length < idxOffset + 2 * idxCount then .error .parseError
    else .ok ⟨positions, decodeU16 bin idxOffset idxCount, posCount, idxCount / 3⟩
  else if idxAccessor.componentType = 5125 then
    if bin.length < idxOffset + 4 * idxCount then .error .parseError
    else .ok ⟨positions, decodeU32 bin idxOffset idxCount, posCount, idxCount / 3⟩
  else .error .unsupportedFormatError

/-- The layout conditions the script checks before it reaches the index
component-type dispatch: first buffer present, both accessors present, both
buffer views resolvable, and the position view inside the payload. -/
def layoutOk (gltf : Gltf) (bin : List ℕ) : Bool :=
  match gltf.buffers.get? 0, gltf.accessors.get? 0, gltf.accessors.get? 1 with
  | some _, some a0, some a1 =>
    match gltf.bufferViews.get? a0.bufferView, gltf.bufferViews.get? a1.bufferView with
    | some v0, some _ =>
        decide (v0.byteOffset + a0.byteOffset + 4 * (a0.count * 3) ≤ bin.length)
    | _, _ => false
  | _, _, _ => false

/-- A model of the JavaScript builtin `parseFloat`, restricted to the plain
decimal forms (optional sign, digits, optional fraction); every other string —
in particular every string with no leading numeric prefix — yields `NaN`,
modelled as `none`.  Rationals suffice because `parseArgs` does no arithmetic. -/
def parseFloat (s : String) : Option ℚ :=
  let signAndRest : ℚ × List Char :=
    match s.toList with
    | '-' :: r => (-1, r)
    | '+' :: r => (1, r)
    | r => (1, r)
  let intDigits := signAndRest.2.takeWhile Char.isDigit
  let afterInt := signAndRest.2.dropWhile Char.isDigit
  let fracDigits :=
    match afterInt with
    | '.' :: r => r.takeWhile Char.isDigit
    | _ => []
  if intDigits.isEmpty && fracDigits.isEmpty then none
  else
    let intVal : ℕ := intDigits.foldl (fun acc c => 10 * acc + (c.toNat - 48)) 0
    let fracVal : ℕ := fracDigits.foldl (fun acc c => 10 * acc + (c.toNat - 48)) 0
    some (signAndRest.1 * ((intVal : ℚ) + (fracVal : ℚ) / (10 : ℚ) ^ fracDigits.length))

/-- The options record built by `parseArgs`.  JavaScript numbers that can be
`NaN` are modelled as `Option ℚ` with `none` for `NaN`; a string option whose
value argument is missing receives `undefined`, modelled as `none`. -/
structure CliOpts where
  input : Option String
  output : Option String
  threshold : Option ℚ
  minLength : Option ℚ
  featureLength : Option ℚ
  boundary : Bool
  zones : Bool
  stats : Bool

/-- The defaults of `parseArgs`. -/
def defaultCliOpts : CliOpts :=
  ⟨some "public/sr71.gltf", some "public/sr71-wireframe.json",
   some 13.75, some 1.8, some 35, true, true, false⟩

/-- The `for` loop of `parseArgs`: each value option consumes the next
argument (`args[++i]`); when that argument is missing the option receives
`undefined` (`none`; `parseFloat(undefined)` is NaN, also `none`) and the loop
ends.  Numeric options go through `parseFloat`; unknown options are warned
about and skipped. -/
def parseArgsAux : List String → CliOpts → CliOpts
  | [], o => o
  | a :: rest, o =>
    if a = "--input" then
      match rest with
      | [] => { o with input := none }
      | v :: rest' => parseArgsAux rest' { o with input := some v }
    else if a = "--output" then
      match rest with
      | [] => { o with output := none }
      | v :: rest' => parseArgsAux rest' { o with output := some v }
    else if a = "--threshold" then
      match rest with
      | [] => { o with threshold := none }
      | v :: rest' => parseArgsAux rest' { o with threshold := parseFloat v }
    else if a = "--min-length" then
      match rest with
      | [] => { o with minLength := none }
      | v :: rest' => parseArgsAux rest' { o with minLength := parseFloat v }
    else if a = "--feature-length" then
      match rest with
      | [] => { o with featureLength := none }
      | v :: rest' => parseArgsAux rest' { o with featureLength := parseFloat v }
    else if a = "--boundary" then parseArgsAux rest { o with boundary := true }
    else if a = "--no-boundary" then parseArgsAux rest { o with boundary := false }
    else if a = "--no-zones" then parseArgsAux rest { o with zones := false }
    else if a = "--stats" then parseArgsAux rest { o with stats := true }
    else parseArgsAux rest o

/-- `parseArgs()` from the script, over the argument list after
`process.argv.slice(2)`. -/
def parseArgs (args : List String) : CliOpts :=
  parseArgsAux args defaultCliOpts

/-! ## Helper lemmas -/

/-- Edge lengths are square roots, hence nonnegative. -/
theorem dist_nonneg' (a b : Vec3) : 0 ≤ dist a b :=
  Real.sqrt_nonneg _

/-- The distance between concrete points, reduced to a square root. -/
theorem dist_eval (a b : Vec3) :
    dist a b = Real.sqrt ((a.1 - b.1) * (a.1 - b.1) + (a.2.1 - b.2.1) * (a.2.1 - b.2.1)
      + (a.2.2 - b.2.2) * (a.2.2 - b.2.2)) := rfl

/-- Unfolding of `processEdge` in the too-short branch. -/
theorem processEdge_floor (opts : Opts) (uz : Bool) (gv : ℕ → Vec3) (fns : List Vec3)
    (acc : List (ℕ × ℕ) × Stats) (a b : ℕ) (faces : List ℕ)
    (h : dist (gv a) (gv b) <
      localMinLength opts (effectiveZone uz (midpoint (gv a) (gv b)))) :
    processEdge opts uz gv fns acc ((a, b), faces)
      = (acc.1, { acc.2 with tooShort := acc.2.tooShort + 1 }) := by
  simp only [processEdge]
  rw [if_pos h]

/-- Unfolding of `processEdge` in the two-face branch: past the floor, an edge
with exactly two adjacent faces is dispatched on the sharp test, then the
feature-length test. -/
theorem processEdge_two_faces (opts : Opts) (uz : Bool) (gv : ℕ → Vec3) (fns : List Vec3)
    (acc : List (ℕ × ℕ) × Stats) (a b : ℕ) (faces : List ℕ)
    (h2 : faces.length = 2)
    (hfloor : ¬ dist (gv a) (gv b) <
      localMinLength opts (effectiveZone uz (midpoint (gv a) (gv b)))) :
    processEdge opts uz gv fns acc ((a, b), faces)
      = (if dihedralAngle (fns.getD (faces.getD 0 0) (0, 0, 0))
              (fns.getD (faces.getD 1 0) (0, 0, 0))
            > localThreshold opts (effectiveZone uz (midpoint (gv a) (gv b)))
                * Real.pi / 180 then
           (acc.1 ++ [(a, b)], { acc.2 with sharp := acc.2.sharp + 1 })
         else if dist (gv a) (gv b) > opts.featureLength then
           (acc.1 ++ [(a, b)], { acc.2 with long := acc.2.long + 1 })
         else (acc.1, { acc.2 with coplanar := acc.2.coplanar + 1 })) := by
  simp only [processEdge]
  rw [if_neg hfloor, if_neg (by omega : ¬ faces.length = 1), if_pos h2]

/-! ## C2: the minLength hard floor -/

/-- C2: an edge whose length is strictly below the effective minLength (the
first matching zone's minLength when zone filtering applies, otherwise the
global one) is excluded from the kept list and tallied as too short, whatever
its adjacent-face count, boundary flag, dihedral angle or feature length —
the floor precedes and overrides every other criterion. -/
theorem minLength_floor_precedence (opts : Opts) (uz : Bool) (gv : ℕ → Vec3)
    (fns : List Vec3) (acc : List (ℕ × ℕ) × Stats) (a b : ℕ) (faces : List ℕ)
    (h : dist (gv a) (gv b) <
      localMinLength opts (effectiveZone uz (midpoint (gv a) (gv b)))) :
    processEdge opts uz gv fns acc ((a, b), faces)
      = (acc.1, { acc.2 with tooShort := acc.2.tooShort + 1 }) :=
  processEdge_floor opts uz gv fns acc a b faces h

/-- Witness for C2: a length-1 edge against a global minLength of 2, with
zones disabled; the edge is non-manifold (three faces) yet still dropped as
too short with the kept list untouched. -/
theorem minLength_floor_precedence_witness :
    processEdge ⟨13.75, 2, 35, true, false⟩ false
        (fun i => if i = 0 then ((0 : ℝ), (0 : ℝ), (0 : ℝ)) else ((1 : ℝ), (0 : ℝ), (0 : ℝ)))
        [] ([], initStats) ((0, 1), [0, 1, 2])
      = ([], { initStats with tooShort := 1 }) := by
  refine minLength_floor_precedence _ _ _ _ _ _ _ _ ?_
  show dist ((0 : ℝ), (0 : ℝ), (0 : ℝ)) ((1 : ℝ), (0 : ℝ), (0 : ℝ)) < 2
  rw [dist_eval]
  norm_num

/-! ## C3: boundary and non-manifold classification -/

/-- C3: past the minLength floor, a boundary edge (exactly one adjacent face)
is kept — and tallied as boundary — if and only if the boundary flag is on
(when the flag is off nothing is pushed or tallied), and a non-manifold edge
(three or more adjacent faces) is always kept and tallied as non-manifold,
regardless of dihedral angle, length above the floor, or zone thresholds. -/
theorem boundary_and_nonmanifold (opts : Opts) (uz : Bool) (gv : ℕ → Vec3)
    (fns : List Vec3) (acc : List (ℕ × ℕ) × Stats) (a b : ℕ) (faces : List ℕ)
    (hfloor : ¬ dist (gv a) (gv b) <
      localMinLength opts (effectiveZone uz (midpoint (gv a) (gv b)))) :
    (faces.length = 1 →
      (opts.boundary = true →
        processEdge opts uz gv fns acc ((a, b), faces)
          = (acc.1 ++ [(a, b)], { acc.2 with boundary := acc.2.boundary + 1 }))
      ∧ (opts.boundary = false →
        processEdge opts uz gv fns acc ((a, b), faces) = acc))
    ∧ (3 ≤ faces.length →
        processEdge opts uz gv fns acc ((a, b), faces)
          = (acc.1 ++ [(a, b)], { acc.2 with nonManifold := acc.2.nonManifold + 1 })) := by
  constructor
  · intro h1
    constructor
    · intro hb
      simp only [processEdge]
      rw [if_neg hfloor, if_pos h1, if_pos hb]
    · intro hb
      simp only [processEdge]
      rw [if_neg hfloor, if_pos h1, if_neg (by simp [hb])]
  · intro h3
    simp only [processEdge]
    rw [if_neg hfloor, if_neg (by omega : ¬ faces.length = 1),
      if_neg (by omega : ¬ faces.length = 2)]

/-- Witness for C3: with the boundary flag on and a zero minLength, a one-face
edge is kept as boundary, and a three-face edge is kept as non-manifold. -/
theorem boundary_and_nonmanifold_witness :
    processEdge ⟨13.75, 0, 35, true, false⟩ false
        (fun _ => ((0 : ℝ), (0 : ℝ), (0 : ℝ))) [] ([], initStats) ((0, 1), [0])
      = ([(0, 1)], { initStats with boundary := 1 })
    ∧ processEdge ⟨13.75, 0, 35, true, false⟩ false
        (fun _ => ((0 : ℝ), (0 : ℝ), (0 : ℝ))) [] ([], initStats) ((0, 1), [0, 1, 2])
      = ([(0, 1)], { initStats with nonManifold := 1 }) := by
  have hfloor : ¬ dist ((0 : ℝ), (0 : ℝ), (0 : ℝ)) ((0 : ℝ), (0 : ℝ), (0 : ℝ)) < (0 : ℝ) :=
    not_lt.mpr (dist_nonneg' _ _)
  exact ⟨((boundary_and_nonmanifold ⟨13.75, 0, 35, true, false⟩ false
        (fun _ => ((0 : ℝ), (0 : ℝ), (0 : ℝ))) [] ([], initStats) 0 1 [0] hfloor).1 rfl).1 rfl,
    (boundary_and_nonmanifold ⟨13.75, 0, 35, true, false⟩ false
        (fun _ => ((0 : ℝ), (0 : ℝ), (0 : ℝ))) [] ([], initStats) 0 1 [0, 1, 2] hfloor).2
      (by norm_num)⟩

/-! ## C1: dihedral-angle classification of interior edges -/

/-- For a unit normal, the clamped-arccos dihedral angle of a face against
itself is `0`. -/
theorem dihedralAngle_unit_same (n : Vec3) (hu : dot n n = 1) :
    dihedralAngle n n = 0 := by
  rw [dihedralAngle, hu, min_self, max_eq_right (by norm_num : (-1 : ℝ) ≤ 1),
    Real.arccos_one]

/-- For a unit normal, the clamped-arccos dihedral angle against the
antiparallel normal is `pi`. -/
theorem dihedralAngle_unit_neg (n : Vec3) (hu : dot n n = 1) :
    dihedralAngle n (-n) = Real.pi := by
  have hd : dot n (-n) = -1 := by
    have h : dot n (-n) = -dot n n := by
      simp only [dot, Prod.fst_neg, Prod.snd_neg]
      ring
    rw [h, hu]
  rw [dihedralAngle, hd, min_eq_right (by norm_num : (-1 : ℝ) ≤ 1), max_self,
    Real.arccos_neg_one]

/-- C1: for an edge with exactly two adjacent faces whose length passes the
effective minLength floor, the edge is kept if and only if the dihedral angle —
the arccosine of the dot product of the two faces' normals, clamped to
`[-1, 1]` — exceeds the effective threshold in radians, or the length exceeds
the global featureLength (never zone-overridden); otherwise it is tallied as
coplanar.  Consequently identical unit normals (angle `0`) are discarded as
coplanar whenever the length does not exceed featureLength and the effective
threshold is nonnegative, and antiparallel unit normals (angle `pi`) are always
classified sharp whenever the effective threshold is below `pi` radians — as it
is for every zone in the `ZONES` table. -/
theorem interior_edge_sharp_or_long_iff (opts : Opts) (uz : Bool) (gv : ℕ → Vec3)
    (fns : List Vec3) (acc : List (ℕ × ℕ) × Stats) (a b : ℕ) (faces : List ℕ)
    (n1 n2 : Vec3) (len thrRad : ℝ) (r : List (ℕ × ℕ) × Stats)
    (hn1 : n1 = fns.getD (faces.getD 0 0) (0, 0, 0))
    (hn2 : n2 = fns.getD (faces.getD 1 0) (0, 0, 0))
    (hlen : len = dist (gv a) (gv b))
    (hthr : thrRad = localThreshold opts (effectiveZone uz (midpoint (gv a) (gv b)))
      * Real.pi / 180)
    (hr : r = processEdge opts uz gv fns acc ((a, b), faces))
    (h2 : faces.length = 2)
    (hfloor : ¬ len < localMinLength opts (effectiveZone uz (midpoint (gv a) (gv b)))) :
    (r.1 = acc.1 ++ [(a, b)] ↔ dihedralAngle n1 n2 > thrRad ∨ len > opts.featureLength)
    ∧ (dihedralAngle n1 n2 > thrRad →
        r = (acc.1 ++ [(a, b)], { acc.2 with sharp := acc.2.sharp + 1 }))
    ∧ (¬ dihedralAngle n1 n2 > thrRad → len > opts.featureLength →
        r = (acc.1 ++ [(a, b)], { acc.2 with long := acc.2.long + 1 }))
    ∧ (¬ dihedralAngle n1 n2 > thrRad → ¬ len > opts.featureLength →
        r = (acc.1, { acc.2 with coplanar := acc.2.coplanar + 1 }))
    ∧ (n2 = n1 → dot n1 n1 = 1 → 0 ≤ thrRad → ¬ len > opts.featureLength →
        r = (acc.1, { acc.2 with coplanar := acc.2.coplanar + 1 }))
    ∧ (n2 = -n1 → dot n1 n1 = 1 → thrRad < Real.pi →
        r = (acc.1 ++ [(a, b)], { acc.2 with sharp := acc.2.sharp + 1 }))
    ∧ (∀ z ∈ ZONES, 0 ≤ z.threshold ∧ z.threshold < 180) := by
  subst hn1 hn2 hlen hthr hr
  rw [processEdge_two_faces opts uz gv fns acc a b faces h2 hfloor]
  have hzones : ∀ z ∈ ZONES, 0 ≤ z.threshold ∧ z.threshold < 180 := by
    intro z hz
    simp only [ZONES, List.mem_cons, List.not_mem_nil, or_false] at hz
    rcases hz with rfl | rfl | rfl | rfl | rfl | rfl | rfl <;> norm_num
  set A := dihedralAngle (fns.getD (faces.getD 0 0) (0, 0, 0))
    (fns.getD (faces.getD 1 0) (0, 0, 0)) with hA
  set T := localThreshold opts (effectiveZone uz (midpoint (gv a) (gv b)))
    * Real.pi / 180 with hT
  by_cases hs : A > T
  · rw [if_pos hs]
    refine ⟨⟨fun _ => Or.inl hs, fun _ => rfl⟩, fun _ => rfl, fun h => absurd hs h,
      fun h => absurd hs h, fun he hu hth _ => ?_, fun _ _ _ => rfl, hzones⟩
    exact absurd hs (by rw [hA, he, dihedralAngle_unit_same _ hu]; exact not_lt.mpr hth)
  · rw [if_neg hs]
    by_cases hl : dist (gv a) (gv b) > opts.featureLength
    · rw [if_pos hl]
      refine ⟨⟨fun _ => Or.inr hl, fun _ => rfl⟩, fun h => absurd h hs, fun _ _ => rfl,
        fun _ h => absurd hl h, fun _ _ _ h => absurd hl h, fun he hu hpi => ?_, hzones⟩
      exact absurd (show A > T by rw [hA, he, dihedralAngle_unit_neg _ hu]; exact hpi) hs
    · rw [if_neg hl]
      refine ⟨⟨fun hk => ?_, fun h => ?_⟩, fun h => absurd h hs, fun _ h => absurd h hl,
        fun _ _ => rfl, fun _ _ _ _ => rfl, fun he hu hpi => ?_, hzones⟩
      · exact absurd hk.symm (by simp)
      · exact absurd h (by simp [hs, hl])
      · exact absurd (show A > T by rw [hA, he, dihedralAngle_unit_neg _ hu]; exact hpi) hs

/-- Witness for C1: two identical unit normals on a zero-length edge with the
default threshold — the coplanar edge is discarded (nothing is pushed). -/
theorem interior_edge_sharp_or_long_iff_witness :
    (processEdge ⟨13.75, 0, 35, true, false⟩ false
        (fun _ => ((0 : ℝ), (0 : ℝ), (0 : ℝ)))
        [((0 : ℝ), (0 : ℝ), (1 : ℝ)), ((0 : ℝ), (0 : ℝ), (1 : ℝ))]
        ([], initStats) ((0, 1), [0, 1])).1 = [] := by
  have h := interior_edge_sharp_or_long_iff ⟨13.75, 0, 35, true, false⟩ false
      (fun _ => ((0 : ℝ), (0 : ℝ), (0 : ℝ)))
      [((0 : ℝ), (0 : ℝ), (1 : ℝ)), ((0 : ℝ), (0 : ℝ), (1 : ℝ))]
      ([], initStats) 0 1 [0, 1]
      ((0 : ℝ), (0 : ℝ), (1 : ℝ)) ((0 : ℝ), (0 : ℝ), (1 : ℝ))
      (dist ((0 : ℝ), (0 : ℝ), (0 : ℝ)) ((0 : ℝ), (0 : ℝ), (0 : ℝ)))
      (13.75 * Real.pi / 180)
      (processEdge ⟨13.75, 0, 35, true, false⟩ false
        (fun _ => ((0 : ℝ), (0 : ℝ), (0 : ℝ)))
        [((0 : ℝ), (0 : ℝ), (1 : ℝ)), ((0 : ℝ), (0 : ℝ), (1 : ℝ))]
        ([], initStats) ((0, 1), [0, 1]))
      rfl rfl rfl rfl rfl rfl (not_lt.mpr (dist_nonneg' _ _))
  have hcop := h.2.2.2.2.1 rfl (by norm_num [dot])
      (div_nonneg (mul_nonneg (by norm_num) Real.pi_pos.le) (by norm_num))
      (by rw [dist_eval]; norm_num)
  rw [hcop]

/-! ## C4: zone lookup contract and global fallback -/

/-- C4: `findZone` returns the first zone in list order whose inclusive
axis-aligned box contains the point (so for overlapping zones the
earlier-declared one wins: every zone before the returned one fails the
containment test), and returns `none` exactly when no zone's box contains the
point; and when the zone is `none` — in particular whenever zone filtering is
disabled — the filter's effective threshold and minLength are the global
defaults. -/
theorem findZone_first_match_and_fallback :
    (∀ (zones : List Zone) (p : Vec3) (z : Zone), findZone zones p = some z →
        ∃ l1 l2, zones = l1 ++ z :: l2 ∧ zoneContains z p
          ∧ ∀ z' ∈ l1, ¬ zoneContains z' p)
    ∧ (∀ (zones : List Zone) (p : Vec3),
        findZone zones p = none ↔ ∀ z ∈ zones, ¬ zoneContains z p)
    ∧ (∀ mid : Vec3, effectiveZone false mid = none)
    ∧ (∀ (uz : Bool) (mid : Vec3), findZone ZONES mid = none → effectiveZone uz mid = none)
    ∧ (∀ opts : Opts,
        localThreshold opts none = opts.threshold
        ∧ localMinLength opts none = opts.minLength) := by
  refine ⟨?_, ?_, fun _ => rfl, ?_, fun _ => ⟨rfl, rfl⟩⟩
  · intro zones p
    induction zones with
    | nil => intro z h; simp [findZone] at h
    | cons z0 zs ih =>
      intro z h
      by_cases hc : zoneContains z0 p
      · rw [findZone, if_pos hc] at h
        obtain rfl : z0 = z := by injection h
        exact ⟨[], zs, rfl, hc, by simp⟩
      · rw [findZone, if_neg hc] at h
        obtain ⟨l1, l2, heq, hz, hnone⟩ := ih z h
        refine ⟨z0 :: l1, l2, by rw [heq, List.cons_append], hz, ?_⟩
        intro z' hz'
        rcases List.mem_cons.mp hz' with rfl | h'
        · exact hc
        · exact hnone z' h'
  · intro zones p
    induction zones with
    | nil => simp [findZone]
    | cons z0 zs ih =>
      by_cases hc : zoneContains z0 p
      · rw [findZone, if_pos hc]
        simp only [List.mem_cons]
        constructor
        · intro h; cases h
        · intro h; exact absurd hc (h z0 (Or.inl rfl))
      · rw [findZone, if_neg hc, ih]
        simp only [List.mem_cons]
        constructor
        · intro h z hz
          rcases hz with rfl | hz
          · exact hc
          · exact h z hz
        · intro h z hz
          exact h z (Or.inr hz)
  · intro uz mid h
    cases uz with
    | false => rfl
    | true => rw [effectiveZone, if_pos rfl, h]

/-- Witness for C4: the point `(0.5, 0.5, 0.5)` lies in both overlapping test
zones, and the lookup over `[zoneA, zoneB]` picks the earlier-declared `zoneA`
with an empty prefix of rejected zones. -/
theorem findZone_first_match_and_fallback_witness :
    ∃ l1 l2, [zoneA, zoneB] = l1 ++ zoneA :: l2
      ∧ zoneContains zoneA ((0.5 : ℝ), (0.5 : ℝ), (0.5 : ℝ))
      ∧ ∀ z' ∈ l1, ¬ zoneContains z' ((0.5 : ℝ), (0.5 : ℝ), (0.5 : ℝ)) := by
  refine findZone_first_match_and_fallback.1 [zoneA, zoneB]
    ((0.5 : ℝ), (0.5 : ℝ), (0.5 : ℝ)) zoneA ?_
  rw [findZone, if_pos]
  exact ⟨by norm_num [zoneA], by norm_num [zoneA], by norm_num [zoneA],
    by norm_num [zoneA], by norm_num [zoneA], by norm_num [zoneA]⟩

/-! ## C6: canonical edge keys and the adjacency builder -/

/-- Looking a key up after one `addFace`: the face is appended exactly when
the key matches, and the map order is otherwise untouched. -/
theorem lookupFaces_addFace (m : List ((ℕ × ℕ) × List ℕ)) (k k' : ℕ × ℕ) (f : ℕ) :
    lookupFaces (addFace m k f) k'
      = lookupFaces m k' ++ if k = k' then [f] else [] := by
  induction m with
  | nil =>
    simp only [addFace, lookupFaces]
    rw [List.nil_append]
  | cons hd tl ih =>
    obtain ⟨k0, fs⟩ := hd
    by_cases h0 : k0 = k
    · simp only [addFace, if_pos h0, lookupFaces]
      by_cases h1 : k0 = k'
      · rw [if_pos h1, if_pos h1, if_pos (h0.symm.trans h1)]
      · rw [if_neg h1, if_neg h1, if_neg (fun hk => h1 (h0.trans hk)), List.append_nil]
    · simp only [addFace, if_neg h0, lookupFaces]
      by_cases h1 : k0 = k'
      · rw [if_pos h1, if_pos h1, if_neg (fun hk => h0 (h1.trans hk.symm)),
          List.append_nil]
      · rw [if_neg h1, if_neg h1, ih]

/-- A conditional singleton is a conditional-length replicate. -/
theorem ite_singleton_replicate (c : Prop) [Decidable c] (f : ℕ) :
    (if c then [f] else []) = List.replicate (if c then 1 else 0) f := by
  by_cases h : c <;> simp [h]

/-- `count` over a three-element list, as a sum of indicator conditionals. -/
theorem count_three (k k1 k2 k3 : ℕ × ℕ) :
    List.count k [k1, k2, k3]
      = (if k1 = k then 1 else 0) + ((if k2 = k then 1 else 0)
        + (if k3 = k then 1 else 0)) := by
  simp only [List.count_cons, List.count_nil, beq_iff_eq]
  by_cases h1 : k1 = k <;> by_cases h2 : k2 = k <;> by_cases h3 : k3 = k <;>
    simp [h1, h2, h3]

/-- Looking a key up after one triangle has been inserted: the face id is
appended once per occurrence of the key among the triangle's three
winding-order edge keys. -/
theorem lookupFaces_addTriangle (m : List ((ℕ × ℕ) × List ℕ)) (indices : List ℕ)
    (f : ℕ) (k : ℕ × ℕ) :
    lookupFaces (addTriangle m indices f) k
      = lookupFaces m k ++ List.replicate ((triEdgeKeys indices f).count k) f := by
  simp only [addTriangle, triEdgeKeys, List.foldl_cons, List.foldl_nil]
  rw [lookupFaces_addFace, lookupFaces_addFace, lookupFaces_addFace, count_three,
    ite_singleton_replicate, ite_singleton_replicate, ite_singleton_replicate,
    List.replicate_add, List.replicate_add, List.append_assoc, List.append_assoc]

/-- Looking a key up after the whole triangle scan, for any starting map. -/
theorem lookupFaces_buildAux (indices : List ℕ) (k : ℕ × ℕ) :
    ∀ (n : ℕ) (m : List ((ℕ × ℕ) × List ℕ)),
      lookupFaces ((List.range n).foldl (fun m' f => addTriangle m' indices f) m) k
        = lookupFaces m k
          ++ (List.range n).flatMap
              (fun f => List.replicate ((triEdgeKeys indices f).count k) f) := by
  intro n
  induction n with
  | zero => intro m; simp
  | succ n ih =>
    intro m
    rw [List.range_succ, List.foldl_append, List.flatMap_append]
    simp only [List.foldl_cons, List.foldl_nil, List.flatMap_cons, List.flatMap_nil,
      List.append_nil]
    rw [lookupFaces_addTriangle, ih, List.append_assoc]

/-- C6: both windings of an edge canonicalize to the same key
(`edgeKey a b = edgeKey b a`, smaller index first), so they collapse to one
adjacency entry; and the adjacency builder maps each key to exactly the face
ids whose triangles produce that key among their three winding-order edge
keys, appended in discovery order (ascending face id, once per occurrence). -/
theorem edgeKey_symm_and_adjacency :
    (∀ a b : ℕ, edgeKey a b = edgeKey b a)
    ∧ (∀ (indices : List ℕ) (k : ℕ × ℕ),
        lookupFaces (buildAdjacency indices) k
          = (List.range (indices.length / 3)).flatMap
              (fun f => List.replicate ((triEdgeKeys indices f).count k) f)) := by
  constructor
  · intro a b
    unfold edgeKey
    rcases Nat.lt_trichotomy a b with h | h | h
    · rw [if_pos h, if_neg (by omega)]
    · subst h; rw [if_neg (by omega)]
    · rw [if_neg (by omega), if_pos h]
  · intro indices k
    have h := lookupFaces_buildAux indices k (indices.length / 3) []
    rw [buildAdjacency]
    rw [h]
    rfl

/-! ## C5: validity and minimality of the compacted output -/

/-- Membership after one `Set.add` step. -/
theorem mem_addVertex (acc : List ℕ) (v w : ℕ) :
    w ∈ addVertex acc v ↔ w ∈ acc ∨ w = v := by
  unfold addVertex
  by_cases h : v ∈ acc
  · rw [if_pos h]
    constructor
    · exact Or.inl
    · rintro (hw | rfl)
      · exact hw
      · exact h
  · rw [if_neg h]
    simp

/-- `Set.add` keeps the collected list duplicate-free. -/
theorem nodup_addVertex (acc : List ℕ) (v : ℕ) (h : acc.Nodup) :
    (addVertex acc v).Nodup := by
  unfold addVertex
  by_cases hv : v ∈ acc
  · rwa [if_pos hv]
  · rw [if_neg hv]
    simp [List.nodup_append, h, hv]

/-- Membership in the endpoint-collection fold: exactly the starting elements
and the endpoints of the scanned edges. -/
theorem mem_usedFold (edges : List (ℕ × ℕ)) :
    ∀ (acc : List ℕ) (v : ℕ),
      v ∈ edges.foldl (fun acc' e => addVertex (addVertex acc' e.1) e.2) acc ↔
        v ∈ acc ∨ ∃ e ∈ edges, v = e.1 ∨ v = e.2 := by
  induction edges with
  | nil => simp
  | cons e es ih =>
    intro acc v
    simp only [List.foldl_cons]
    rw [ih]
    simp only [mem_addVertex, List.mem_cons]
    constructor
    · rintro (((h | h) | h) | ⟨e', he', h'⟩)
      · exact Or.inl h
      · exact Or.inr ⟨e, Or.inl rfl, Or.inl h⟩
      · exact Or.inr ⟨e, Or.inl rfl, Or.inr h⟩
      · exact Or.inr ⟨e', Or.inr he', h'⟩
    · rintro (h | ⟨e', (rfl | he'), h'⟩)
      · exact Or.inl (Or.inl (Or.inl h))
      · rcases h' with h' | h'
        · exact Or.inl (Or.inl (Or.inr h'))
        · exact Or.inl (Or.inr h')
      · exact Or.inr ⟨e', he', h'⟩

/-- The endpoint-collection fold keeps the list duplicate-free. -/
theorem nodup_usedFold (edges : List (ℕ × ℕ)) :
    ∀ acc : List ℕ, acc.Nodup →
      (edges.foldl (fun acc' e => addVertex (addVertex acc' e.1) e.2) acc).Nodup := by
  induction edges with
  | nil => intro acc h; exact h
  | cons e es ih =>
    intro acc h
    exact ih _ (nodup_addVertex _ _ (nodup_addVertex _ _ h))

/-- The used-vertex list contains exactly the endpoints of the kept edges. -/
theorem mem_usedVerticesList (edges : List (ℕ × ℕ)) (v : ℕ) :
    v ∈ usedVerticesList edges ↔ ∃ e ∈ edges, v = e.1 ∨ v = e.2 := by
  rw [usedVerticesList, mem_usedFold]
  simp

/-- The used-vertex list is duplicate-free. -/
theorem nodup_usedVerticesList (edges : List (ℕ × ℕ)) :
    (usedVerticesList edges).Nodup :=
  nodup_usedFold edges [] (by simp)

/-- The compacted position buffer holds three coordinates per used vertex. -/
theorem length_outVertices (gv : ℕ → Vec3) (used : List ℕ) :
    (outVertices gv used).length = 3 * used.length := by
  unfold outVertices
  induction used with
  | nil => simp
  | cons v vs ih =>
    simp only [List.flatMap_cons, List.length_append, ih, List.length_cons,
      List.length_nil]
    omega

/-- Every index written to the output index buffer is the position of some
kept-edge endpoint in the used-vertex list, and conversely. -/
theorem mem_outIndices (used : List ℕ) (edges : List (ℕ × ℕ)) (k : ℕ) :
    k ∈ outIndices used edges
      ↔ ∃ e ∈ edges, k = used.indexOf e.1 ∨ k = used.indexOf e.2 := by
  rw [outIndices, List.mem_flatMap]
  constructor
  · rintro ⟨e, he, hk⟩
    rcases List.mem_cons.mp hk with rfl | hk
    · exact ⟨e, he, Or.inl rfl⟩
    · rcases List.mem_cons.mp hk with rfl | hk
      · exact ⟨e, he, Or.inr rfl⟩
      · cases hk
  · rintro ⟨e, he, (rfl | rfl)⟩
    · exact ⟨e, he, by simp⟩
    · exact ⟨e, he, by simp⟩

/-- C5: in the serialized output, every index appearing in the edge-index
array addresses a complete vertex triple inside the compacted vertex buffer,
and every vertex of the compacted buffer is referenced by at least one output
edge — no orphan vertices survive compaction. -/
theorem output_indices_valid_no_orphans (positions : List ℝ) (indices : List ℕ)
    (opts : Opts) :
    ((extractFeatureEdges positions indices opts).indices.all
        (fun k => decide (3 * k + 2
          < (extractFeatureEdges positions indices opts).vertices.length))) = true
    ∧ ((List.range ((extractFeatureEdges positions indices opts).vertices.length / 3)).all
        (fun j => (extractFeatureEdges positions indices opts).indices.contains j)) = true := by
  have hvert : (extractFeatureEdges positions indices opts).vertices
      = outVertices (getVertex positions)
          (usedVerticesList (filterEdges opts (opts.zones && !ZONES.isEmpty)
            (getVertex positions) (faceNormals positions indices)
            (buildAdjacency indices)).1) := rfl
  have hidx : (extractFeatureEdges positions indices opts).indices
      = outIndices (usedVerticesList (filterEdges opts (opts.zones && !ZONES.isEmpty)
            (getVertex positions) (faceNormals positions indices)
            (buildAdjacency indices)).1)
          (filterEdges opts (opts.zones && !ZONES.isEmpty) (getVertex positions)
            (faceNormals positions indices) (buildAdjacency indices)).1 := rfl
  set E := (filterEdges opts (opts.zones && !ZONES.isEmpty) (getVertex positions)
    (faceNormals positions indices) (buildAdjacency indices)).1 with hE
  rw [hvert, hidx, List.all_eq_true, List.all_eq_true]
  constructor
  · intro k hk
    rw [decide_eq_true_iff, length_outVertices]
    obtain ⟨e, he, hor⟩ := (mem_outIndices _ _ _).mp hk
    have hlt : ∀ v, v ∈ usedVerticesList E →
        (usedVerticesList E).indexOf v < (usedVerticesList E).length := fun v hv =>
      List.indexOf_lt_length.mpr hv
    rcases hor with rfl | rfl
    · have hmem : e.1 ∈ usedVerticesList E :=
        (mem_usedVerticesList _ _).mpr ⟨e, he, Or.inl rfl⟩
      have := hlt _ hmem
      omega
    · have hmem : e.2 ∈ usedVerticesList E :=
        (mem_usedVerticesList _ _).mpr ⟨e, he, Or.inr rfl⟩
      have := hlt _ hmem
      omega
  · intro j hj
    rw [List.elem_iff]
    rw [List.mem_range, length_outVertices, Nat.mul_div_cancel_left _ (by norm_num)] at hj
    have hget : (usedVerticesList E)[j] ∈ usedVerticesList E := List.getElem_mem _
    obtain ⟨e, he, hor⟩ := (mem_usedVerticesList _ _).mp hget
    have hidxj : (usedVerticesList E).indexOf ((usedVerticesList E)[j]) = j :=
      List.indexOf_getElem (nodup_usedVerticesList E) j hj
    rw [mem_outIndices]
    rcases hor with h | h
    · exact ⟨e, he, Or.inl (by rw [h] at hidxj; exact hidxj.symm)⟩
    · exact ⟨e, he, Or.inr (by rw [h] at hidxj; exact hidxj.symm)⟩

/-! ## C10: the kept-edge categories partition the output -/

/-- Each processed edge changes the kept list and the four kept tallies in
lock-step: a push is paired with exactly one kept-category increment, and a
discard with none. -/
theorem processEdge_partition (opts : Opts) (uz : Bool) (gv : ℕ → Vec3)
    (fns : List Vec3) (acc : List (ℕ × ℕ) × Stats) (e : (ℕ × ℕ) × List ℕ) :
    (processEdge opts uz gv fns acc e).1.length + keptCount acc.2
      = acc.1.length + keptCount (processEdge opts uz gv fns acc e).2 := by
  simp only [processEdge]
  split_ifs <;> simp [keptCount] <;> omega

/-- The lock-step invariant carried through the whole filter loop. -/
theorem filterFold_partition (opts : Opts) (uz : Bool) (gv : ℕ → Vec3)
    (fns : List Vec3) (l : List ((ℕ × ℕ) × List ℕ)) :
    ∀ acc : List (ℕ × ℕ) × Stats,
      (l.foldl (processEdge opts uz gv fns) acc).1.length + keptCount acc.2
        = acc.1.length + keptCount (l.foldl (processEdge opts uz gv fns) acc).2 := by
  induction l with
  | nil => intro acc; rfl
  | cons e es ih =>
    intro acc
    simp only [List.foldl_cons]
    have h1 := processEdge_partition opts uz gv fns acc e
    have h2 := ih (processEdge opts uz gv fns acc e)
    omega

/-- The output index buffer holds exactly one pair of indices per kept edge. -/
theorem length_outIndices (used : List ℕ) (edges : List (ℕ × ℕ)) :
    (outIndices used edges).length = 2 * edges.length := by
  rw [outIndices]
  induction edges with
  | nil => rfl
  | cons e es ih =>
    simp only [List.flatMap_cons, List.length_append, List.length_cons,
      List.length_nil] at ih ⊢
    omega

/-- C10: each edge pushed onto the kept list increments exactly one of the
four counters sharp/long/boundary/nonManifold, so the reported
`meta.featureEdges` equals their sum and the output index array holds exactly
one pair per kept edge; in particular an interior edge that is both sharper
than the threshold and longer than featureLength is tallied only as sharp. -/
theorem kept_category_partition :
    (∀ (opts : Opts) (uz : Bool) (gv : ℕ → Vec3) (fns : List Vec3)
        (acc : List (ℕ × ℕ) × Stats) (e : (ℕ × ℕ) × List ℕ),
        (processEdge opts uz gv fns acc e).1.length + keptCount acc.2
          = acc.1.length + keptCount (processEdge opts uz gv fns acc e).2)
    ∧ (∀ (positions : List ℝ) (indices : List ℕ) (opts : Opts),
        (extractFeatureEdges positions indices opts).meta.featureEdges
          = (extractFeatureEdges positions indices opts).meta.sharp
            + (extractFeatureEdges positions indices opts).meta.long
            + (extractFeatureEdges positions indices opts).meta.boundary
            + (extractFeatureEdges positions indices opts).meta.nonManifold)
    ∧ (∀ (positions : List ℝ) (indices : List ℕ) (opts : Opts),
        (extractFeatureEdges positions indices opts).indices.length
          = 2 * (extractFeatureEdges positions indices opts).meta.featureEdges)
    ∧ (∀ (opts : Opts) (uz : Bool) (gv : ℕ → Vec3) (fns : List Vec3)
        (acc : List (ℕ × ℕ) × Stats) (a b : ℕ) (faces : List ℕ),
        faces.length = 2 →
        ¬ dist (gv a) (gv b)
            < localMinLength opts (effectiveZone uz (midpoint (gv a) (gv b))) →
        dihedralAngle (fns.getD (faces.getD 0 0) (0, 0, 0))
            (fns.getD (faces.getD 1 0) (0, 0, 0))
          > localThreshold opts (effectiveZone uz (midpoint (gv a) (gv b)))
              * Real.pi / 180 →
        dist (gv a) (gv b) > opts.featureLength →
        (processEdge opts uz gv fns acc ((a, b), faces)).2.sharp = acc.2.sharp + 1
          ∧ (processEdge opts uz gv fns acc ((a, b), faces)).2.long = acc.2.long) := by
  refine ⟨processEdge_partition, ?_, ?_, ?_⟩
  · intro positions indices opts
    have h := filterFold_partition opts (opts.zones && !ZONES.isEmpty)
      (getVertex positions) (faceNormals positions indices) (buildAdjacency indices)
      ([], initStats)
    have e1 : (extractFeatureEdges positions indices opts).meta.featureEdges
        = (List.foldl (processEdge opts (opts.zones && !ZONES.isEmpty)
            (getVertex positions) (faceNormals positions indices)) ([], initStats)
            (buildAdjacency indices)).1.length := rfl
    have e2 : (extractFeatureEdges positions indices opts).meta.sharp
        = (List.foldl (processEdge opts (opts.zones && !ZONES.isEmpty)
            (getVertex positions) (faceNormals positions indices)) ([], initStats)
            (buildAdjacency indices)).2.sharp := rfl
    have e3 : (extractFeatureEdges positions indices opts).meta.long
        = (List.foldl (processEdge opts (opts.zones && !ZONES.isEmpty)
            (getVertex positions) (faceNormals positions indices)) ([], initStats)
            (buildAdjacency indices)).2.long := rfl
    have e4 : (extractFeatureEdges positions indices opts).meta.boundary
        = (List.foldl (processEdge opts (opts.zones && !ZONES.isEmpty)
            (getVertex positions) (faceNormals positions indices)) ([], initStats)
            (buildAdjacency indices)).2.boundary := rfl
    have e5 : (extractFeatureEdges positions indices opts).meta.nonManifold
        = (List.foldl (processEdge opts (opts.zones && !ZONES.isEmpty)
            (getVertex positions) (faceNormals positions indices)) ([], initStats)
            (buildAdjacency indices)).2.nonManifold := rfl
    rw [e1, e2, e3, e4, e5]
    simp only [keptCount] at h
    have hz : (([], initStats) : List (ℕ × ℕ) × Stats).2.sharp = 0 := rfl
    have hz2 : (([], initStats) : List (ℕ × ℕ) × Stats).2.long = 0 := rfl
    have hz3 : (([], initStats) : List (ℕ × ℕ) × Stats).2.boundary = 0 := rfl
    have hz4 : (([], initStats) : List (ℕ × ℕ) × Stats).2.nonManifold = 0 := rfl
    have hz5 : (([], initStats) : List (ℕ × ℕ) × Stats).1.length = 0 := rfl
    rw [hz, hz2, hz3, hz4, hz5] at h
    omega
  · intro positions indices opts
    have e1 : (extractFeatureEdges positions indices opts).indices
        = outIndices (usedVerticesList (filterEdges opts (opts.zones && !ZONES.isEmpty)
              (getVertex positions) (faceNormals positions indices)
              (buildAdjacency indices)).1)
            (filterEdges opts (opts.zones && !ZONES.isEmpty) (getVertex positions)
              (faceNormals positions indices) (buildAdjacency indices)).1 := rfl
    have e2 : (extractFeatureEdges positions indices opts).meta.featureEdges
        = (filterEdges opts (opts.zones && !ZONES.isEmpty) (getVertex positions)
            (faceNormals positions indices) (buildAdjacency indices)).1.length := rfl
    rw [e1, e2, length_outIndices]
  · intro opts uz gv fns acc a b faces h2 hfloor hsharp hlong
    rw [processEdge_two_faces opts uz gv fns acc a b faces h2 hfloor, if_pos hsharp]
    exact ⟨rfl, rfl⟩

/-- Witness for C10's sharp-and-long conjunct: an edge of length 40 (above the
featureLength 35) between two antiparallel-normal faces (angle pi, above the
default threshold) is tallied as sharp only, with the long tally untouched. -/
theorem kept_category_partition_witness :
    (processEdge ⟨13.75, 0, 35, true, false⟩ false
        (fun i => if i = 0 then ((0 : ℝ), (0 : ℝ), (0 : ℝ)) else ((40 : ℝ), (0 : ℝ), (0 : ℝ)))
        [((0 : ℝ), (0 : ℝ), (1 : ℝ)), ((0 : ℝ), (0 : ℝ), (-1 : ℝ))]
        ([], initStats) ((0, 1), [0, 1])).2.sharp = 1
    ∧ (processEdge ⟨13.75, 0, 35, true, false⟩ false
        (fun i => if i = 0 then ((0 : ℝ), (0 : ℝ), (0 : ℝ)) else ((40 : ℝ), (0 : ℝ), (0 : ℝ)))
        [((0 : ℝ), (0 : ℝ), (1 : ℝ)), ((0 : ℝ), (0 : ℝ), (-1 : ℝ))]
        ([], initStats) ((0, 1), [0, 1])).2.long = 0 := by
  have hdist : dist ((0 : ℝ), (0 : ℝ), (0 : ℝ)) ((40 : ℝ), (0 : ℝ), (0 : ℝ)) = 40 := by
    rw [dist_eval]
    norm_num
    rw [show (1600 : ℝ) = 40 ^ 2 by norm_num, Real.sqrt_sq (by norm_num : (0 : ℝ) ≤ 40)]
  have hang : dihedralAngle ((0 : ℝ), (0 : ℝ), (1 : ℝ)) ((0 : ℝ), (0 : ℝ), (-1 : ℝ))
      = Real.pi := by
    rw [dihedralAngle, show dot ((0 : ℝ), (0 : ℝ), (1 : ℝ)) ((0 : ℝ), (0 : ℝ), (-1 : ℝ))
        = -1 by norm_num [dot],
      min_eq_right (by norm_num : (-1 : ℝ) ≤ 1), max_self, Real.arccos_neg_one]
  exact kept_category_partition.2.2.2 ⟨13.75, 0, 35, true, false⟩ false
    (fun i => if i = 0 then ((0 : ℝ), (0 : ℝ), (0 : ℝ)) else ((40 : ℝ), (0 : ℝ), (0 : ℝ)))
    [((0 : ℝ), (0 : ℝ), (1 : ℝ)), ((0 : ℝ), (0 : ℝ), (-1 : ℝ))]
    ([], initStats) 0 1 [0, 1] rfl
    (by
      show ¬ dist ((0 : ℝ), (0 : ℝ), (0 : ℝ)) ((40 : ℝ), (0 : ℝ), (0 : ℝ)) < (0 : ℝ)
      rw [hdist]
      norm_num)
    (by
      show dihedralAngle ((0 : ℝ), (0 : ℝ), (1 : ℝ)) ((0 : ℝ), (0 : ℝ), (-1 : ℝ))
        > 13.75 * Real.pi / 180
      rw [hang]
      have hpi := Real.pi_pos
      nlinarith)
    (by
      show dist ((0 : ℝ), (0 : ℝ), (0 : ℝ)) ((40 : ℝ), (0 : ℝ), (0 : ℝ)) > (35 : ℝ)
      rw [hdist]
      norm_num)

/-! ## C7: loader error classification -/

/-- C7: the loader fails with a parse error whenever the accessor/buffer-view
layout is absent or malformed (any pre-dispatch lookup or bound fails), fails
with an unsupported-format error whenever the layout is fine but the declared
index component type is neither 5123 (16-bit) nor 5125 (32-bit), and returns a
loaded mesh only when the layout is fine and the component type is one of the
two recognized widths — there is no partial load. -/
theorem loadGLTF_error_classification
    (decodeF32 : List ℕ → ℕ → ℕ → List ℝ) (decodeU16 decodeU32 : List ℕ → ℕ → ℕ → List ℕ)
    (gltf : Gltf) (bin : List ℕ) :
    (layoutOk gltf bin = false →
        loadGLTF decodeF32 decodeU16 decodeU32 gltf bin = .error .parseError)
    ∧ (∀ a1, gltf.accessors.get? 1 = some a1 → layoutOk gltf bin = true →
        a1.componentType ≠ 5123 → a1.componentType ≠ 5125 →
        loadGLTF decodeF32 decodeU16 decodeU32 gltf bin = .error .unsupportedFormatError)
    ∧ (∀ m, loadGLTF decodeF32 decodeU16 decodeU32 gltf bin = .ok m →
        layoutOk gltf bin = true
          ∧ ∃ a1, gltf.accessors.get? 1 = some a1
              ∧ (a1.componentType = 5123 ∨ a1.componentType = 5125)) := by
  unfold loadGLTF layoutOk
  simp only [List.get?_eq_getElem?]
  rcases hb : gltf.buffers[0]? with _ | b0 <;> simp only [hb]
  · simp
  rcases ha0 : gltf.accessors[0]? with _ | a0 <;> simp only [ha0]
  · simp
  rcases ha1 : gltf.accessors[1]? with _ | a1 <;> simp only [ha1]
  · rcases hv0 : gltf.bufferViews[a0.bufferView]? with _ | v0 <;> simp only [hv0]
    · simp
    · split_ifs <;> simp
  rcases hv0 : gltf.bufferViews[a0.bufferView]? with _ | v0 <;> simp only [hv0]
  · simp
  rcases hv1 : gltf.bufferViews[a1.bufferView]? with _ | v1 <;> simp only [hv1]
  · split_ifs <;> simp
  by_cases hpos : bin.length < v0.byteOffset + a0.byteOffset + 4 * (a0.count * 3)
  · rw [if_pos hpos]
    simp [show ¬ (v0.byteOffset + a0.byteOffset + 4 * (a0.count * 3) ≤ bin.length) by omega]
  · rw [if_neg hpos]
    have hdec : decide (v0.byteOffset + a0.byteOffset + 4 * (a0.count * 3) ≤ bin.length) = true := by
      simp; omega
    simp only [hdec]
    by_cases hct1 : a1.componentType = 5123
    · rw [if_pos hct1]
      by_cases hidx : bin.length < v1.byteOffset + a1.byteOffset + 2 * a1.count
      · rw [if_pos hidx]
        refine ⟨fun _ => rfl, fun a1' ha1' _ hne _ => ?_, fun m hm => Except.noConfusion hm⟩
        injection ha1' with he
        exact absurd (he ▸ hct1) hne
      · rw [if_neg hidx]
        refine ⟨fun hf => Bool.noConfusion hf, fun a1' ha1' _ hne _ => ?_,
          fun m _ => ⟨trivial, a1, rfl, Or.inl hct1⟩⟩
        injection ha1' with he
        exact absurd (he ▸ hct1) hne
    · rw [if_neg hct1]
      by_cases hct2 : a1.componentType = 5125
      · rw [if_pos hct2]
        by_cases hidx : bin.length < v1.byteOffset + a1.byteOffset + 4 * a1.count
        · rw [if_pos hidx]
          refine ⟨fun _ => rfl, fun a1' ha1' _ _ hne => ?_, fun m hm => Except.noConfusion hm⟩
          injection ha1' with he
          exact absurd (he ▸ hct2) hne
        · rw [if_neg hidx]
          refine ⟨fun hf => Bool.noConfusion hf, fun a1' ha1' _ _ hne => ?_,
            fun m _ => ⟨trivial, a1, rfl, Or.inr hct2⟩⟩
          injection ha1' with he
          exact absurd (he ▸ hct2) hne
      · rw [if_neg hct2]
        exact ⟨fun hf => Bool.noConfusion hf, fun _ _ _ _ _ => rfl, fun m hm => Except.noConfusion hm⟩

/-- Witness for C7: an empty container (no buffers, no accessors) fails the
layout check and loads as a parse error; a well-laid-out container whose index
accessor declares component type 9999 loads as an unsupported-format error. -/
theorem loadGLTF_error_classification_witness :
    loadGLTF (fun _ _ _ => []) (fun _ _ _ => []) (fun _ _ _ => []) ⟨[], [], []⟩ []
      = .error .parseError
    ∧ loadGLTF (fun _ _ _ => []) (fun _ _ _ => []) (fun _ _ _ => [])
        ⟨[⟨"model.bin"⟩], [⟨0⟩], [⟨0, 0, 0, 5126⟩, ⟨0, 0, 0, 9999⟩]⟩ []
      = .error .unsupportedFormatError := by
  constructor
  · exact (loadGLTF_error_classification (fun _ _ _ => []) (fun _ _ _ => [])
      (fun _ _ _ => []) ⟨[], [], []⟩ []).1 rfl
  · exact (loadGLTF_error_classification (fun _ _ _ => []) (fun _ _ _ => [])
      (fun _ _ _ => []) ⟨[⟨"model.bin"⟩], [⟨0⟩], [⟨0, 0, 0, 5126⟩, ⟨0, 0, 0, 9999⟩]⟩ []).2.1
      ⟨0, 0, 0, 9999⟩ rfl rfl (by norm_num) (by norm_num)

/-! ## C8: non-numeric CLI arguments are coerced to NaN, not rejected -/

/-- C8 (what the code actually does at the failing input): `parseArgs` has no
failure path at all — a non-numeric value for `--threshold`, `--min-length` or
`--feature-length` is silently coerced to NaN (`none` in the model) and carried
into the returned options, rather than rejected with a configuration error. -/
theorem parseArgs_nan_coercion :
    (parseArgs ["--threshold", "abc"]).threshold = none
    ∧ (parseArgs ["--min-length", "xyz"]).minLength = none
    ∧ (parseArgs ["--feature-length", "foo"]).featureLength = none := by
  refine ⟨?_, ?_, ?_⟩ <;> rfl

/-! ## C9: determinism of the extraction -/

/-- C9: the extraction is a pure function of the mesh buffers and the
configuration — two runs on identical input produce identical output documents
(vertices, indices and metadata), hence byte-identical serializations. -/
theorem extract_deterministic (positions : List ℝ) (indices : List ℕ) (opts : Opts)
    (r1 r2 : ExtractResult)
    (h1 : r1 = extractFeatureEdges positions indices opts)
    (h2 : r2 = extractFeatureEdges positions indices opts) : r1 = r2 :=
  h1.trans h2.symm

/-- Witness for C9: two runs on the empty mesh with the default configuration
agree. -/
theorem extract_deterministic_witness :
    extractFeatureEdges [] [] ⟨13.75, 1.8, 35, true, true⟩
      = extractFeatureEdges [] [] ⟨13.75, 1.8, 35, true, true⟩ :=
  extract_deterministic [] [] ⟨13.75, 1.8, 35, true, true⟩ _ _ rfl rfl

end Wireframe
